import Mathlib

/-!
# Verification of the sequential tool-calling RAG backend

Shallow embedding of `backend/ai_generator.py` (the sequential tool-calling
orchestrator `AIGenerator.generate_response_with_sequential_tools` and its
helpers), together with models of the retrieval-layer values the test suite
pins down (`SearchResults`, `_build_filter`, `ToolManager.execute_tool`).

The LLM transport is modelled as a script: a function from call index to
either a transport failure (an exception message) or a model response.
The tool manager is modelled as a pair of pure functions: `execute_tool`
returning either an exception message or a result text, and
`get_last_sources` indexed by how many times it has been consulted so far
(mirroring the sequenced mock side effects used by the repository's tests).
A Python exception escaping a function is modelled as `Except.error`.
-/

namespace RagChatbot

/-- An attribution record `{text, link}` as produced by the tools. -/
structure Source where
  text : String
  link : Option String
deriving DecidableEq, Repr

/-- One content block of a model response.  Mirrors the duck-typed blocks of
the Anthropic SDK: every block carries a `type` tag and the attributes the
orchestrator reads (`text` for text blocks; `name`, `input`, `id` for
tool-use blocks). -/
structure ContentBlock where
  type : String
  text : String := ""
  name : String := ""
  input : List (String × String) := []
  id : String := ""
deriving DecidableEq, Repr

/-- A `{"type": "tool_result", "tool_use_id": ..., "content": ...}` entry. -/
structure ToolResult where
  tool_use_id : String
  content : String
deriving DecidableEq, Repr

/-- The payload of a transcript message: a plain user string, an assistant
response's content blocks, or a combined tool-results list. -/
inductive MessageContent where
  | text (s : String)
  | blocks (bs : List ContentBlock)
  | toolResults (rs : List ToolResult)
deriving DecidableEq, Repr

/-- A role-tagged transcript message. -/
structure Message where
  role : String
  content : MessageContent
deriving DecidableEq, Repr

/-- `{"role": "user", "content": query}` -/
def userMsg (q : String) : Message := ⟨"user", .text q⟩

/-- `{"role": "assistant", "content": response.content}` -/
def assistantMsg (bs : List ContentBlock) : Message := ⟨"assistant", .blocks bs⟩

/-- `{"role": "user", "content": tool_results}` -/
def toolResultsMsg (rs : List ToolResult) : Message := ⟨"user", .toolResults rs⟩

/-- A model response: stop condition plus content blocks. -/
structure ModelResponse where
  stop_reason : String
  content : List ContentBlock
deriving DecidableEq, Repr

/-- One entry of `round_state.completed_tool_calls`. -/
structure CompletedToolCall where
  round : Nat
  tool : String
  params : List (String × String)
  result : String
deriving DecidableEq, Repr

/-- `ToolRoundState` of `ai_generator.py`: transcript, round counter, round
ceiling, accumulated sources, and the completed-tool-call log. -/
structure ToolRoundState where
  messages : List Message := []
  round_count : Nat := 0
  max_rounds : Nat := 2
  all_sources : List Source := []
  completed_tool_calls : List CompletedToolCall := []
deriving DecidableEq, Repr

/-- The tool manager as seen by the orchestrator: `execute_tool` may raise
(`Except.error`) or return result text; `get_last_sources` is indexed by the
number of previous `get_last_sources` calls in this query. -/
structure ToolManagerModel where
  execute_tool : String → List (String × String) → Except String String
  get_last_sources : Nat → List Source

/-- A tool schema entry is opaque to the orchestrator. -/
abbrev ToolDef := String

/-- The external model: call index ↦ transport failure or response. -/
abbrev ModelScript := Nat → Except String ModelResponse

/-- One API request as issued by the orchestrator: the message snapshot,
the `tools` list passed (empty when the key is absent), and the
`tool_choice` mode (`some "auto"` or absent). -/
structure APICall where
  messages : List Message
  tools : List ToolDef
  tool_choice : Option String
deriving DecidableEq, Repr

/-- `response.content[0].text`; raises `IndexError` on an empty list. -/
def firstText (r : ModelResponse) : Except String String :=
  match r.content with
  | [] => .error "list index out of range"
  | b :: _ => .ok b.text

/-- The `except` text of the round loop:
`f"An error occurred during tool execution: {str(e)}"`. -/
def transportErrText (e : String) : String :=
  "An error occurred during tool execution: " ++ e

/-- `f"Tool execution failed in round {round_num}. Unable to complete the request."` -/
def toolFailText (n : Nat) : String :=
  "Tool execution failed in round " ++ toString n ++ ". Unable to complete the request."

/-- The failure text of `_generate_final_response_after_tools`. -/
def finalFailText : String :=
  "Unable to generate final response after tool execution."

/-- The block-processing loop of `_process_tool_execution_for_round`:
walks the content blocks; for each `tool_use` block executes the tool,
collecting a `ToolResult` and a `CompletedToolCall`.  The Bool is False when
some invocation raised; the completed-call log keeps the entries of the
invocations that succeeded before the raise (their `append` already ran),
while the local `tool_results` list is discarded by the caller on failure. -/
def runToolBlocks (tm : ToolManagerModel) (round_num : Nat) :
    List ContentBlock → List ToolResult × List CompletedToolCall × Bool
  | [] => ([], [], true)
  | b :: rest =>
    if b.type = "tool_use" then
      match tm.execute_tool b.name b.input with
      | .error _ => ([], [], false)
      | .ok r =>
        let t := runToolBlocks tm round_num rest
        (⟨b.id, r⟩ :: t.1, ⟨round_num, b.name, b.input, r⟩ :: t.2.1, t.2.2)
    else runToolBlocks tm round_num rest

/-- `AIGenerator._process_tool_execution_for_round`: appends the assistant
message, executes the round's tool blocks, and on success appends the
combined tool-results message (when any tool ran), extends `all_sources`
with `tool_manager.get_last_sources()`, and increments `round_count`.
Returns (success flag, updated state, updated `get_last_sources` counter). -/
def process_tool_execution_for_round (response : ModelResponse)
    (st : ToolRoundState) (tm : ToolManagerModel) (round_num gl : Nat) :
    Bool × ToolRoundState × Nat :=
  let st1 : ToolRoundState :=
    { st with messages := st.messages ++ [assistantMsg response.content] }
  match runToolBlocks tm round_num response.content with
  | (trs, ctc, true) =>
    let st2 : ToolRoundState :=
      { st1 with completed_tool_calls := st1.completed_tool_calls ++ ctc }
    if trs.isEmpty then
      (true, { st2 with round_count := st2.round_count + 1 }, gl)
    else
      (true, { st2 with
                messages := st2.messages ++ [toolResultsMsg trs]
                all_sources := st2.all_sources ++ tm.get_last_sources gl
                round_count := st2.round_count + 1 }, gl + 1)
  | (_, ctc, false) =>
    (false, { st1 with completed_tool_calls := st1.completed_tool_calls ++ ctc }, gl)

/-- Outcome of the round loop: an early return (`answer`), or the loop ran
out of rounds (`maxReached`) and the forced final synthesis follows.  Both
carry the API calls the loop issued, in order. -/
inductive LoopResult where
  | answer (text : String) (st : ToolRoundState) (calls : List APICall)
  | maxReached (st : ToolRoundState) (calls : List APICall) (callIdx gl : Nat)
deriving DecidableEq, Repr

/-- The request issued by `_execute_round`: current message snapshot with
the tool schemas and `tool_choice = {"type": "auto"}`. -/
def execute_round_call (st : ToolRoundState) (tools : List ToolDef) : APICall :=
  ⟨st.messages, tools, some "auto"⟩

/-- The `for round_num in range(1, max_rounds + 1)` loop of
`generate_response_with_sequential_tools`.  `fuel` is the number of rounds
left, `rn` the current round number, `ci` the number of model calls already
issued (the script index), `gl` the `get_last_sources` counter.  A transport
failure of `_execute_round`, or an exception inside
`_extract_final_response`, is caught by the loop's `except` and converted to
`transportErrText`; a tool failure returns `toolFailText rn`. -/
def runRounds (script : ModelScript) (tm : ToolManagerModel)
    (tools : List ToolDef) :
    Nat → Nat → Nat → Nat → ToolRoundState → LoopResult
  | 0, _, ci, gl, st => .maxReached st [] ci gl
  | fuel + 1, rn, ci, gl, st =>
    let call := execute_round_call st tools
    match script ci with
    | .error e => .answer (transportErrText e) st [call]
    | .ok response =>
      if response.stop_reason ≠ "tool_use" then
        match firstText response with
        | .error e => .answer (transportErrText e) st [call]
        | .ok t => .answer t st [call]
      else
        match process_tool_execution_for_round response st tm rn gl with
        | (false, st1, _) => .answer (toolFailText rn) st1 [call]
        | (true, st1, gl1) =>
          match runRounds script tm tools fuel (rn + 1) (ci + 1) gl1 st1 with
          | .answer t st2 calls => .answer t st2 (call :: calls)
          | .maxReached st2 calls ci2 gl2 => .maxReached st2 (call :: calls) ci2 gl2

/-- Result of one orchestrator run that returned normally: the answer text,
the API calls issued in order, and the final `ToolRoundState` (`none` on the
no-tools fallback path, which never creates one). -/
structure SeqResult where
  answer : String
  calls : List APICall
  state? : Option ToolRoundState
deriving DecidableEq, Repr

/-- `AIGenerator.generate_response` as invoked by the fallback path (no
tools and no tool manager passed): one request without tool schemas or
tool-choice mode; a transport failure, or an `IndexError` reading
`response.content[0].text`, re-raises (`Except.error`). -/
def generate_response (script : ModelScript) (query : String) :
    Except String SeqResult :=
  let call : APICall := ⟨[userMsg query], [], none⟩
  match script 0 with
  | .error e => .error e
  | .ok response =>
    match firstText response with
    | .error e => .error e
    | .ok t => .ok ⟨t, [call], none⟩

/-- `AIGenerator._generate_final_response_after_tools`: one request carrying
the transcript without tool schemas; any exception (transport failure or
empty content) is caught and converted to `finalFailText`.  Returns the
answer text and the issued call. -/
def generate_final_response_after_tools (script : ModelScript) (ci : Nat)
    (st : ToolRoundState) : String × APICall :=
  let call : APICall := ⟨st.messages, [], none⟩
  match script ci with
  | .error _ => (finalFailText, call)
  | .ok response =>
    match firstText response with
    | .error _ => (finalFailText, call)
    | .ok t => (t, call)

/-- `AIGenerator.generate_response_with_sequential_tools`: falls back to
plain `generate_response` when `tools` is empty/None or `tool_manager` is
None; otherwise initializes a `ToolRoundState` with the user message, runs
the bounded round loop, and on reaching the round ceiling issues the forced
final synthesis call. -/
def generate_response_with_sequential_tools (script : ModelScript)
    (query : String) (tools : List ToolDef)
    (tool_manager : Option ToolManagerModel) (max_rounds : Nat) :
    Except String SeqResult :=
  match tool_manager with
  | none => generate_response script query
  | some tm =>
    if tools.isEmpty then generate_response script query
    else
      let st0 : ToolRoundState := { messages := [userMsg query], max_rounds := max_rounds }
      match runRounds script tm tools max_rounds 1 0 0 st0 with
      | .answer t st calls => .ok ⟨t, calls, some st⟩
      | .maxReached st calls ci _ =>
        let fin := generate_final_response_after_tools script ci st
        .ok ⟨fin.1, calls ++ [fin.2], some st⟩

/-! ## Retrieval-layer values

`vector_store.py` and `search_tools.py` are absent from `src/`; only their
test suites are present.  The definitions below are modelled from the spec,
with behavior pinned by those tests where the tests are explicit. -/

/-- Modelled from the spec: `SearchResults` of `vector_store.py` (absent
from `src/`) — parallel sequences of documents, metadata and distances plus
an optional error string.  Metadata and distance entry types are opaque
parameters. -/
structure SearchResults (Meta Dist : Type) where
  documents : List String
  metadata : List Meta
  distances : List Dist
  error : Option String := none
deriving DecidableEq, Repr

/-- Modelled from the spec: `SearchResults.empty(error_msg)` — empty
sequences with an error string set, as asserted by
`test_empty_results_with_error`. -/
def SearchResults.empty {Meta Dist : Type} (msg : String) :
    SearchResults Meta Dist :=
  ⟨[], [], [], some msg⟩

/-- Modelled from the spec: `SearchResults.is_empty` of `vector_store.py`
(absent from `src/`).  The spec states an error-bearing result is still
considered empty for control-flow purposes, and
`TestVectorStore.test_search_exception_handling`
(`src/backend/tests/test_vector_store.py` lines 242-255) asserts
`is_empty()` is true on a result whose error field is set: emptiness looks
only at the documents sequence. -/
def SearchResults.is_empty {Meta Dist : Type} (r : SearchResults Meta Dist) :
    Bool :=
  r.documents.length == 0

/-- A Chroma `where`-filter value as built by `_build_filter`:
an equality predicate on `course_title`, one on `lesson_number`, or a
`$and` conjunction. -/
inductive ChromaFilter where
  | course_title (c : String)
  | lesson_number (l : Int)
  | and (fs : List ChromaFilter)

/-- Modelled from the spec: `VectorStore._build_filter` of
`vector_store.py` (absent from `src/`) — `None` when both arguments are
unset, a single equality predicate when one is set, and a `$and`
conjunction of both predicates when both are set, as asserted by the four
`test_build_filter_*` tests. -/
def build_filter : Option String → Option Int → Option ChromaFilter
  | none, none => none
  | some c, none => some (.course_title c)
  | none, some l => some (.lesson_number l)
  | some c, some l => some (.and [.course_title c, .lesson_number l])

/-- The apostrophe character, as used in the not-found message. -/
def squote : String := String.singleton (Char.ofNat 39)

/-- Modelled from the spec: the Tool Registry (`ToolManager` of
`search_tools.py`, absent from `src/`) — a name-keyed mapping from tool
names to executors. -/
structure ToolManager where
  tools : List (String × (List (String × String) → String))

/-- Modelled from the spec: `ToolManager.execute_tool` of
`search_tools.py` (absent from `src/`) — dispatches by name and returns the
literal not-found text for an unregistered name, as asserted by
`TestToolManager.test_execute_nonexistent_tool`. -/
def ToolManager.execute_tool (tm : ToolManager) (tool_name : String)
    (params : List (String × String)) : String :=
  match tm.tools.lookup tool_name with
  | some t => t params
  | none => "Tool " ++ squote ++ tool_name ++ squote ++ " not found"

/-! ## Observation helpers -/

/-- The API calls a `LoopResult` carries. -/
def loopCalls : LoopResult → List APICall
  | .answer _ _ cs => cs
  | .maxReached _ cs _ _ => cs

/-- Prepend already-issued calls onto a loop outcome. -/
def prependCalls (cs : List APICall) : LoopResult → LoopResult
  | .answer t st cs2 => .answer t st (cs ++ cs2)
  | .maxReached st cs2 ci gl => .maxReached st (cs ++ cs2) ci gl

/-- The sources handed out by `n` consecutive `get_last_sources` calls
starting at counter `gl`, concatenated in call order (no deduplication). -/
def sourcesOfRounds (tm : ToolManagerModel) : Nat → Nat → List Source
  | _, 0 => []
  | gl, k + 1 => tm.get_last_sources gl ++ sourcesOfRounds tm (gl + 1) k

/-- Script position `i` holds a tool-use response whose tool invocations
all succeed and at least one tool runs (so sources are collected). -/
def RoundOKSrc (script : ModelScript) (tm : ToolManagerModel) (i : Nat) : Prop :=
  ∃ resp, script i = .ok resp ∧ resp.stop_reason = "tool_use" ∧
    (runToolBlocks tm (i + 1) resp.content).2.2 = true ∧
    (runToolBlocks tm (i + 1) resp.content).1 ≠ []

/-- Answer text of an orchestrator run, `none` when it raised. -/
def resultAnswer : Except String SeqResult → Option String
  | .ok r => some r.answer
  | .error _ => none

/-- Accumulated source list of an orchestrator run (`none` when it raised
or never created a `ToolRoundState`). -/
def resultSources : Except String SeqResult → Option (List Source)
  | .ok r => r.state?.map ToolRoundState.all_sources
  | .error _ => none

/-- Number of model calls issued by a run that returned normally. -/
def resultCallCount : Except String SeqResult → Option Nat
  | .ok r => some r.calls.length
  | .error _ => none

/-- Whether an exception escaped the orchestrator boundary. -/
def raisesException : Except String SeqResult → Bool
  | .ok _ => false
  | .error _ => true

/-! ## Concrete fixtures, mirroring the mocks of `test_ai_generator.py` -/

/-- A tool-use content block (cf. mock `tool_1`). -/
def sampleToolBlock : ContentBlock :=
  ⟨"tool_use", "", "search_course_content", [("query", "q")], "tool_1"⟩

/-- A tool-use response requesting one tool. -/
def sampleToolResponse : ModelResponse := ⟨"tool_use", [sampleToolBlock]⟩

/-- A plain end-of-turn text response. -/
def sampleTextResponse (s : String) : ModelResponse :=
  ⟨"end_turn", [⟨"text", s, "", [], ""⟩]⟩

/-- A second, distinguishable tool-use block. -/
def secondToolBlock : ContentBlock :=
  ⟨"tool_use", "", "search_course_content", [("query", "q2")], "tool_2"⟩

/-- A tool-use response requesting the second tool call. -/
def secondToolResponse : ModelResponse := ⟨"tool_use", [secondToolBlock]⟩

/-- A tool manager whose executions all succeed; `get_last_sources`
returns one distinct source per consultation. -/
def tmAlwaysOk : ToolManagerModel :=
  ⟨fun _ _ => .ok "Tool result", fun n => [⟨"src" ++ toString n, none⟩]⟩

/-- A tool manager that hands out the same single source on every
consultation (to exhibit the absence of deduplication). -/
def tmSameSource : ToolManagerModel :=
  ⟨fun _ _ => .ok "Tool result", fun _ => [⟨"dup", none⟩]⟩

/-- A tool manager whose executions always raise. -/
def tmAlwaysRaise : ToolManagerModel :=
  ⟨fun _ _ => .error "Tool execution failed", fun _ => []⟩

/-- A tool manager that raises exactly on the second tool call's input. -/
def tmSecondRaises : ToolManagerModel :=
  ⟨fun _ ps => if ps = [("query", "q2")] then .error "boom" else .ok "r",
   fun n => [⟨"src" ++ toString n, none⟩]⟩

/-- Script: tool use at call 0, then text answers. -/
def scriptToolThenText : ModelScript := fun n =>
  if n = 0 then .ok sampleToolResponse else .ok (sampleTextResponse "final")

/-- Script: tool use at calls 0 and 1, then a text answer. -/
def scriptTwoToolsThenText : ModelScript := fun n =>
  if n ≤ 1 then .ok sampleToolResponse else .ok (sampleTextResponse "synthesis")

/-- Script: a text answer at every call. -/
def scriptTextOnly : ModelScript := fun _ => .ok (sampleTextResponse "direct answer")

/-- Script: every call fails at the transport level. -/
def scriptAllError : ModelScript := fun _ => .error "API down"

/-- Script: first tool-use round succeeds, second round requests the
tool call that `tmSecondRaises` rejects. -/
def scriptFailRound2 : ModelScript := fun n =>
  if n = 0 then .ok sampleToolResponse else .ok secondToolResponse

/-- Script: a tool-use stop condition carrying zero tool-use blocks at
call 0, then a text answer. -/
def scriptEmptyToolUse : ModelScript := fun n =>
  if n = 0 then .ok (⟨"tool_use", [⟨"text", "thinking", "", [], ""⟩]⟩ : ModelResponse)
  else .ok (sampleTextResponse "after empty round")

/-- Script: round 1 requests a tool, every later call fails at the
transport level (so only the final synthesis call fails). -/
def scriptFinalError : ModelScript := fun n =>
  if n = 0 then .ok sampleToolResponse else .error "down"

/-! ## Structural lemmas -/

theorem prependCalls_nil (r : LoopResult) : prependCalls [] r = r := by
  cases r <;> simp [prependCalls]

theorem runToolBlocks_no_tool_use (tm : ToolManagerModel) (rn : Nat)
    (bs : List ContentBlock) (h : ∀ b ∈ bs, b.type ≠ "tool_use") :
    runToolBlocks tm rn bs = ([], [], true) := by
  induction bs with
  | nil => rfl
  | cons b rest ih =>
    have hb : b.type ≠ "tool_use" := h b (by simp)
    simp only [runToolBlocks, if_neg hb]
    exact ih fun x hx => h x (by simp [hx])

theorem process_of_fail (response : ModelResponse) (st : ToolRoundState)
    (tm : ToolManagerModel) (rn gl : Nat)
    (h : (runToolBlocks tm rn response.content).2.2 = false) :
    process_tool_execution_for_round response st tm rn gl =
      (false,
       { st with
          messages := st.messages ++ [assistantMsg response.content]
          completed_tool_calls :=
            st.completed_tool_calls ++ (runToolBlocks tm rn response.content).2.1 },
       gl) := by
  rcases hE : runToolBlocks tm rn response.content with ⟨trs, ctc, b⟩
  rw [hE] at h
  simp only at h
  subst h
  simp [process_tool_execution_for_round, hE]

theorem process_of_cons (response : ModelResponse) (st : ToolRoundState)
    (tm : ToolManagerModel) (rn gl : Nat)
    (ht : (runToolBlocks tm rn response.content).2.2 = true)
    (hne : (runToolBlocks tm rn response.content).1 ≠ []) :
    process_tool_execution_for_round response st tm rn gl =
      (true,
       { st with
          messages := st.messages ++
            [assistantMsg response.content,
             toolResultsMsg (runToolBlocks tm rn response.content).1]
          completed_tool_calls :=
            st.completed_tool_calls ++ (runToolBlocks tm rn response.content).2.1
          all_sources := st.all_sources ++ tm.get_last_sources gl
          round_count := st.round_count + 1 },
       gl + 1) := by
  rcases hE : runToolBlocks tm rn response.content with ⟨trs, ctc, b⟩
  rw [hE] at ht hne
  simp only at ht hne
  subst ht
  have hemp : trs.isEmpty = false := by
    cases trs with
    | nil => exact absurd rfl hne
    | cons a l => rfl
  simp [process_tool_execution_for_round, hE, hemp]

theorem process_of_no_tools (response : ModelResponse) (st : ToolRoundState)
    (tm : ToolManagerModel) (rn gl : Nat)
    (h : ∀ b ∈ response.content, b.type ≠ "tool_use") :
    process_tool_execution_for_round response st tm rn gl =
      (true,
       { st with
          messages := st.messages ++ [assistantMsg response.content]
          round_count := st.round_count + 1 },
       gl) := by
  have hE := runToolBlocks_no_tool_use tm rn response.content h
  simp [process_tool_execution_for_round, hE]

theorem runRounds_loopCalls (script : ModelScript) (tm : ToolManagerModel)
    (tools : List ToolDef) :
    ∀ (fuel rn ci gl : Nat) (st : ToolRoundState),
      (loopCalls (runRounds script tm tools fuel rn ci gl st)).length ≤ fuel ∧
      ∀ c ∈ loopCalls (runRounds script tm tools fuel rn ci gl st),
        c.tools = tools ∧ c.tool_choice = some "auto" := by
  intro fuel
  induction fuel with
  | zero =>
    intro rn ci gl st
    simp [runRounds, loopCalls]
  | succ f ih =>
    intro rn ci gl st
    cases hs : script ci with
    | error e =>
      simp [runRounds, hs, loopCalls, execute_round_call]
    | ok resp =>
      by_cases hstop : resp.stop_reason = "tool_use"
      · rcases hp : process_tool_execution_for_round resp st tm rn gl with ⟨b, st1, gl1⟩
        cases b with
        | false =>
          simp [runRounds, hs, hstop, hp, loopCalls, execute_round_call]
        | true =>
          have hih := ih (rn + 1) (ci + 1) gl1 st1
          cases hr : runRounds script tm tools f (rn + 1) (ci + 1) gl1 st1 with
          | answer t st2 cs2 =>
            rw [hr] at hih
            simp only [loopCalls] at hih
            simp only [runRounds, hs, hstop, hp, hr]
            simp [loopCalls, execute_round_call]
            constructor
            · omega
            · exact fun c hc => hih.2 c hc
          | maxReached st2 cs2 ci2 gl2 =>
            rw [hr] at hih
            simp only [loopCalls] at hih
            simp only [runRounds, hs, hstop, hp, hr]
            simp [loopCalls, execute_round_call]
            constructor
            · omega
            · exact fun c hc => hih.2 c hc
      · cases hft : firstText resp with
        | error e2 =>
          simp [runRounds, hs, hstop, hft, loopCalls, execute_round_call]
        | ok t =>
          simp [runRounds, hs, hstop, hft, loopCalls, execute_round_call]

theorem runRounds_loopCalls_ne_nil (script : ModelScript) (tm : ToolManagerModel)
    (tools : List ToolDef) (f rn ci gl : Nat) (st : ToolRoundState) :
    loopCalls (runRounds script tm tools (f + 1) rn ci gl st) ≠ [] := by
  cases hs : script ci with
  | error e => simp [runRounds, hs, loopCalls]
  | ok resp =>
    by_cases hstop : resp.stop_reason = "tool_use"
    · rcases hp : process_tool_execution_for_round resp st tm rn gl with ⟨b, st1, gl1⟩
      cases b with
      | false => simp [runRounds, hs, hstop, hp, loopCalls]
      | true =>
        cases hr : runRounds script tm tools f (rn + 1) (ci + 1) gl1 st1 with
        | answer t st2 cs2 => simp [runRounds, hs, hstop, hp, hr, loopCalls]
        | maxReached st2 cs2 ci2 gl2 => simp [runRounds, hs, hstop, hp, hr, loopCalls]
    · cases hft : firstText resp with
      | error e2 => simp [runRounds, hs, hstop, hft, loopCalls]
      | ok t => simp [runRounds, hs, hstop, hft, loopCalls]

theorem runRounds_prefix_src (script : ModelScript) (tm : ToolManagerModel)
    (tools : List ToolDef) :
    ∀ (k fuel ci gl : Nat) (st : ToolRoundState), k ≤ fuel →
      (∀ j, j < k → RoundOKSrc script tm (ci + j)) →
      ∃ (st2 : ToolRoundState) (cs : List APICall),
        runRounds script tm tools fuel (ci + 1) ci gl st =
          prependCalls cs
            (runRounds script tm tools (fuel - k) (ci + k + 1) (ci + k) (gl + k) st2) ∧
        cs.length = k ∧
        st2.all_sources = st.all_sources ++ sourcesOfRounds tm gl k := by
  intro k
  induction k with
  | zero =>
    intro fuel ci gl st _ _
    refine ⟨st, [], ?_, rfl, by simp [sourcesOfRounds]⟩
    rw [prependCalls_nil]
    simp
  | succ k ih =>
    intro fuel ci gl st hk hpre
    cases fuel with
    | zero => omega
    | succ f =>
      obtain ⟨resp, hr, hstop, hok, hne⟩ := hpre 0 (Nat.succ_pos k)
      simp only [Nat.add_zero] at hr hok hne
      have hproc := process_of_cons resp st tm (ci + 1) gl hok hne
      obtain ⟨st2, cs2, heq, hlen, hsrc⟩ :=
        ih f (ci + 1) (gl + 1)
          { st with
              messages := st.messages ++
                [assistantMsg resp.content,
                 toolResultsMsg (runToolBlocks tm (ci + 1) resp.content).1]
              completed_tool_calls :=
                st.completed_tool_calls ++ (runToolBlocks tm (ci + 1) resp.content).2.1
              all_sources := st.all_sources ++ tm.get_last_sources gl
              round_count := st.round_count + 1 }
          (by omega)
          (fun j hj => by
            have e : ci + 1 + j = ci + (j + 1) := by omega
            rw [e]
            exact hpre (j + 1) (by omega))
      refine ⟨st2, execute_round_call st tools :: cs2, ?_, by simp [hlen], ?_⟩
      · have e1 : ci + (k + 1) + 1 = ci + 1 + k + 1 := by omega
        have e2 : ci + (k + 1) = ci + 1 + k := by omega
        have e3 : gl + (k + 1) = gl + 1 + k := by omega
        have e4 : f + 1 - (k + 1) = f - k := by omega
        rw [e1, e2, e3, e4]
        cases hR : runRounds script tm tools (f - k) (ci + 1 + k + 1) (ci + 1 + k)
            (gl + 1 + k) st2 with
        | answer t st4 cs4 =>
          rw [hR] at heq
          simp [runRounds, hr, hstop, hproc, heq, prependCalls]
        | maxReached st4 cs4 ci4 gl4 =>
          rw [hR] at heq
          simp [runRounds, hr, hstop, hproc, heq, prependCalls]
      · rw [hsrc]
        simp [sourcesOfRounds]

theorem generate_final_snd (script : ModelScript) (ci : Nat)
    (st : ToolRoundState) :
    (generate_final_response_after_tools script ci st).2 =
      ⟨st.messages, [], none⟩ := by
  unfold generate_final_response_after_tools
  cases hs : script ci with
  | error e => rfl
  | ok resp =>
    cases hf : firstText resp with
    | error e => simp [hf]
    | ok t => simp [hf]

theorem runRounds_succ_toolstep (script : ModelScript) (tm : ToolManagerModel)
    (tools : List ToolDef) (f rn ci gl : Nat) (st : ToolRoundState)
    (resp : ModelResponse) (hr : script ci = .ok resp)
    (hstop : resp.stop_reason = "tool_use") (st1 : ToolRoundState) (gl1 : Nat)
    (hp : process_tool_execution_for_round resp st tm rn gl = (true, st1, gl1)) :
    runRounds script tm tools (f + 1) rn ci gl st =
      prependCalls [execute_round_call st tools]
        (runRounds script tm tools f (rn + 1) (ci + 1) gl1 st1) := by
  cases hR : runRounds script tm tools f (rn + 1) (ci + 1) gl1 st1 with
  | answer a st2 cs2 => simp [runRounds, hr, hstop, hp, hR, prependCalls]
  | maxReached st2 cs2 ci2 gl2 => simp [runRounds, hr, hstop, hp, hR, prependCalls]

/-! ## Claim theorems -/

/-- C2 (counterexample): the empty-documents `SearchResults` produced for a
backend failure has its error field set, yet `is_empty` still returns true —
refuting the claim that `is_empty` holds only when the error field is unset.
This is the exact value asserted by `test_search_exception_handling`. -/
theorem is_empty_true_on_error_result :
    (SearchResults.empty "Search error: ChromaDB error" :
        SearchResults Unit Unit).is_empty = true ∧
    (SearchResults.empty "Search error: ChromaDB error" :
        SearchResults Unit Unit).error = some "Search error: ChromaDB error" ∧
    (SearchResults.empty "Search error: ChromaDB error" :
        SearchResults Unit Unit).documents = [] :=
  ⟨rfl, rfl, rfl⟩

/-- C2 (amended): `is_empty` returns true iff the documents sequence is
empty, regardless of the error field. -/
theorem is_empty_iff_documents_nil {Meta Dist : Type}
    (r : SearchResults Meta Dist) :
    r.is_empty = true ↔ r.documents = [] := by
  simp [SearchResults.is_empty, List.length_eq_zero]

/-- C7: `build_filter` is a pure function (its Lean type is a plain
function) returning `none` when both arguments are unset, a single equality
predicate when exactly one is set, and the `$and` conjunction of the course
and lesson predicates when both are set. -/
theorem build_filter_spec (C : String) (L : Int) :
    build_filter none none = none ∧
    build_filter (some C) none = some (.course_title C) ∧
    build_filter none (some L) = some (.lesson_number L) ∧
    build_filter (some C) (some L) =
      some (.and [.course_title C, .lesson_number L]) :=
  ⟨rfl, rfl, rfl, rfl⟩

/-- C8: for every tool name that is not registered and every parameter
set, `execute_tool` returns the literal not-found text.  The model's
return type is `String`, so no exception can be raised. -/
theorem execute_tool_not_found (tm : ToolManager) (name : String)
    (params : List (String × String)) (h : tm.tools.lookup name = none) :
    tm.execute_tool name params =
      "Tool " ++ squote ++ name ++ squote ++ " not found" := by
  simp [ToolManager.execute_tool, h]

/-- C8 witness: the empty registry at the name used by
`test_execute_nonexistent_tool`. -/
theorem execute_tool_not_found_witness :
    (ToolManager.mk []).tools.lookup "nonexistent_tool" = none ∧
    (ToolManager.mk []).execute_tool "nonexistent_tool" [("query", "test")] =
      "Tool " ++ squote ++ "nonexistent_tool" ++ squote ++ " not found" :=
  ⟨rfl, execute_tool_not_found (ToolManager.mk []) "nonexistent_tool"
    [("query", "test")] rfl⟩

/-- C1 (counterexample): on the fallback path (no tools, no tool manager)
a transport failure of the single model call propagates as an exception
past the orchestrator boundary instead of being converted into answer
text — refuting the claim that the orchestrator never raises for any input,
with or without tools supplied. -/
theorem fallback_transport_failure_raises :
    generate_response_with_sequential_tools scriptAllError "Test query" [] none 2 =
      .error "API down" ∧
    raisesException
      (generate_response_with_sequential_tools scriptAllError "Test query" [] none 2) =
      true :=
  ⟨rfl, rfl⟩

/-- C1 (amended): when tools and a tool manager are supplied, the
orchestrator never raises past its boundary; a transport failure of a
round's model call is converted into
"An error occurred during tool execution: <message>", while a transport
failure of the forced final-synthesis call is converted into
"Unable to generate final response after tool execution.". -/
theorem orchestrator_error_containment_with_tools (script : ModelScript)
    (tm : ToolManagerModel) (tools : List ToolDef) (h : tools ≠ [])
    (mr : Nat) (q : String) :
    (∃ r, generate_response_with_sequential_tools script q tools (some tm) mr =
      .ok r) ∧
    (∀ e, 0 < mr → script 0 = .error e →
      resultAnswer (generate_response_with_sequential_tools script q tools (some tm) mr) =
        some (transportErrText e)) ∧
    (∀ e, (∀ j, j < mr → RoundOKSrc script tm j) → script mr = .error e →
      resultAnswer (generate_response_with_sequential_tools script q tools (some tm) mr) =
        some finalFailText) := by
  cases tools with
  | nil => exact absurd rfl h
  | cons t ts =>
    refine ⟨?_, ?_, ?_⟩
    · cases hR : runRounds script tm (t :: ts) mr 1 0 0
          { messages := [userMsg q], max_rounds := mr } with
      | answer a st cs =>
        exact ⟨⟨a, cs, some st⟩,
          by simp [generate_response_with_sequential_tools, hR]⟩
      | maxReached st cs ci gl =>
        exact ⟨⟨(generate_final_response_after_tools script ci st).1,
            cs ++ [(generate_final_response_after_tools script ci st).2], some st⟩,
          by simp [generate_response_with_sequential_tools, hR]⟩
    · intro e hmr he
      obtain ⟨f, rfl⟩ := Nat.exists_eq_succ_of_ne_zero (Nat.pos_iff_ne_zero.mp hmr)
      simp [generate_response_with_sequential_tools, runRounds, he, resultAnswer]
    · intro e hok he
      obtain ⟨st2, cs, heq, _, _⟩ :=
        runRounds_prefix_src script tm (t :: ts) mr mr 0 0
          { messages := [userMsg q], max_rounds := mr } le_rfl
          (fun j hj => by simpa using hok j hj)
      simp only [Nat.zero_add, Nat.sub_self, Nat.add_zero] at heq
      rw [runRounds] at heq
      simp only [prependCalls] at heq
      simp [generate_response_with_sequential_tools, heq,
        generate_final_response_after_tools, he, resultAnswer]

/-- C1 witness: a concrete transport failure at round 1 with tools
supplied is converted into the round-loop error text. -/
theorem orchestrator_error_containment_with_tools_witness :
    (["tool"] : List ToolDef) ≠ [] ∧ (0 : Nat) < 2 ∧
    scriptAllError 0 = .error "API down" ∧
    resultAnswer
      (generate_response_with_sequential_tools scriptAllError "q" ["tool"]
        (some tmAlwaysOk) 2) = some (transportErrText "API down") := by
  refine ⟨by simp, by omega, rfl, ?_⟩
  exact (orchestrator_error_containment_with_tools scriptAllError tmAlwaysOk
    ["tool"] (by simp) 2 "q").2.1 "API down" (by omega) rfl

/-- C5: if round 1's model response has a stop condition other than
tool use, the orchestrator makes exactly one model call in total (the
tool-bearing one), executes zero tools (the final state is the untouched
initial round state), and returns the response's first text block. -/
theorem early_termination_single_call (script : ModelScript)
    (tm : ToolManagerModel) (tools : List ToolDef) (h : tools ≠ [])
    (mr : Nat) (hmr : 0 < mr) (q : String) (resp : ModelResponse)
    (hr : script 0 = .ok resp) (hstop : resp.stop_reason ≠ "tool_use")
    (b : ContentBlock) (rest : List ContentBlock)
    (hc : resp.content = b :: rest) (_hb : b.type = "text") :
    generate_response_with_sequential_tools script q tools (some tm) mr =
      .ok ⟨b.text, [⟨[userMsg q], tools, some "auto"⟩],
        some ⟨[userMsg q], 0, mr, [], []⟩⟩ := by
  obtain ⟨f, rfl⟩ := Nat.exists_eq_succ_of_ne_zero (Nat.pos_iff_ne_zero.mp hmr)
  cases tools with
  | nil => exact absurd rfl h
  | cons t ts =>
    simp [generate_response_with_sequential_tools, runRounds, hr, hstop,
      firstText, hc, execute_round_call]

/-- C5 witness: a direct text answer at round 1 yields one call and an
untouched state. -/
theorem early_termination_single_call_witness :
    scriptTextOnly 0 = .ok (sampleTextResponse "direct answer") ∧
    (sampleTextResponse "direct answer").stop_reason ≠ "tool_use" ∧
    generate_response_with_sequential_tools scriptTextOnly "q" ["tool"]
        (some tmAlwaysOk) 2 =
      .ok ⟨"direct answer", [⟨[userMsg "q"], ["tool"], some "auto"⟩],
        some ⟨[userMsg "q"], 0, 2, [], []⟩⟩ := by
  refine ⟨rfl, by decide, ?_⟩
  exact early_termination_single_call scriptTextOnly tmAlwaysOk ["tool"]
    (by simp) 2 (by omega) "q" (sampleTextResponse "direct answer") rfl
    (by decide) ⟨"text", "direct answer", "", [], ""⟩ [] rfl rfl

/-- C9: when `tools` is empty or `tool_manager` is absent, the
orchestrator delegates to plain generation: the result does not depend on
`max_rounds`, exactly one request is issued carrying no tool schemas and
no tool-choice mode, no `ToolRoundState` is created (`state?` is `none`),
and the response's first content block's text is returned. -/
theorem fallback_plain_generation (script : ModelScript) (q : String)
    (tools : List ToolDef) (tool_manager : Option ToolManagerModel)
    (h : tools = [] ∨ tool_manager = none) (mr : Nat) :
    generate_response_with_sequential_tools script q tools tool_manager mr =
      generate_response script q ∧
    (∀ resp b rest, script 0 = .ok resp → resp.content = b :: rest →
      generate_response_with_sequential_tools script q tools tool_manager mr =
        .ok ⟨b.text, [⟨[userMsg q], [], none⟩], none⟩) := by
  have hmain : generate_response_with_sequential_tools script q tools tool_manager mr =
      generate_response script q := by
    cases tool_manager with
    | none => rfl
    | some tm =>
      rcases h with h | h
      · subst h; rfl
      · simp at h
  refine ⟨hmain, ?_⟩
  intro resp b rest hr hc
  rw [hmain]
  simp [generate_response, hr, firstText, hc]

/-- C9 witness: the fallback at empty tools, with `max_rounds = 5`
ignored. -/
theorem fallback_plain_generation_witness :
    (([] : List ToolDef) = [] ∨ (none : Option ToolManagerModel) = none) ∧
    scriptTextOnly 0 = .ok (sampleTextResponse "direct answer") ∧
    generate_response_with_sequential_tools scriptTextOnly "q" [] none 5 =
      .ok ⟨"direct answer", [⟨[userMsg "q"], [], none⟩], none⟩ := by
  refine ⟨Or.inl rfl, rfl, ?_⟩
  exact (fallback_plain_generation scriptTextOnly "q" [] none (Or.inl rfl) 5).2
    (sampleTextResponse "direct answer") ⟨"text", "direct answer", "", [], ""⟩
    [] rfl rfl

/-- C3: with round ceiling `N` the orchestrator issues at most `N` model
calls carrying a tool-choice mode (and hence the tool schemas); when all
`N` rounds request tools and their executions succeed, it issues exactly
one additional final-synthesis call — `N + 1` calls in total, the first `N`
carrying the schemas with `tool_choice = auto` and the last carrying no
schemas and no tool choice — and the first content block's text of the
final call's response is returned whatever that response's stop condition
is. -/
theorem round_bounding_and_forced_final_synthesis (script : ModelScript)
    (tm : ToolManagerModel) (tools : List ToolDef) (h : tools ≠ [])
    (N : Nat) (_hN : 0 < N) (q : String) :
    (∀ r, generate_response_with_sequential_tools script q tools (some tm) N =
        .ok r →
      r.calls.countP (fun c => c.tool_choice.isSome) ≤ N) ∧
    ((∀ j, j < N → RoundOKSrc script tm j) → ∀ resp, script N = .ok resp →
      ∃ r st2,
        generate_response_with_sequential_tools script q tools (some tm) N =
          .ok r ∧
        r.state? = some st2 ∧
        r.calls.length = N + 1 ∧
        (∀ c ∈ r.calls.take N, c.tools = tools ∧ c.tool_choice = some "auto") ∧
        r.calls.getLast? = some ⟨st2.messages, [], none⟩ ∧
        ∀ b rest, resp.content = b :: rest → r.answer = b.text) := by
  cases tools with
  | nil => exact absurd rfl h
  | cons t ts =>
    constructor
    · intro r hg
      have hlc := runRounds_loopCalls script tm (t :: ts) N 1 0 0
        { messages := [userMsg q], max_rounds := N }
      cases hR : runRounds script tm (t :: ts) N 1 0 0
          { messages := [userMsg q], max_rounds := N } with
      | answer a st cs =>
        rw [hR] at hlc
        simp only [loopCalls] at hlc
        simp [generate_response_with_sequential_tools, hR] at hg
        subst hg
        exact le_trans (List.countP_le_length _) hlc.1
      | maxReached st cs ci gl =>
        rw [hR] at hlc
        simp only [loopCalls] at hlc
        simp [generate_response_with_sequential_tools, hR] at hg
        subst hg
        rw [List.countP_append, generate_final_snd]
        simp only [List.countP_cons, List.countP_nil]
        simp
        exact le_trans (List.countP_le_length _) hlc.1
    · intro hok resp he
      obtain ⟨st2, cs, heq, hlen, _⟩ :=
        runRounds_prefix_src script tm (t :: ts) N N 0 0
          { messages := [userMsg q], max_rounds := N } le_rfl
          (fun j hj => by simpa using hok j hj)
      simp only [Nat.zero_add, Nat.sub_self, Nat.add_zero] at heq
      rw [runRounds] at heq
      simp only [prependCalls, List.append_nil] at heq
      have hlc := runRounds_loopCalls script tm (t :: ts) N 1 0 0
        { messages := [userMsg q], max_rounds := N }
      rw [heq] at hlc
      simp only [loopCalls] at hlc
      refine ⟨⟨(generate_final_response_after_tools script N st2).1,
          cs ++ [(generate_final_response_after_tools script N st2).2], some st2⟩,
        st2, by simp [generate_response_with_sequential_tools, heq], rfl,
        by simp [hlen], ?_, ?_, ?_⟩
      · intro c hc
        rw [← hlen, List.take_left] at hc
        exact hlc.2 c hc
      · rw [List.getLast?_concat, generate_final_snd]
      · intro b rest hc
        simp [generate_final_response_after_tools, he, firstText, hc]

/-- C3 witness: tool use in rounds 1 and 2 with `max_rounds = 2` yields
three model calls and the third call's text as the answer. -/
theorem round_bounding_and_forced_final_synthesis_witness :
    (["tool"] : List ToolDef) ≠ [] ∧ (0 : Nat) < 2 ∧
    scriptTwoToolsThenText 2 = .ok (sampleTextResponse "synthesis") ∧
    resultCallCount
      (generate_response_with_sequential_tools scriptTwoToolsThenText "q"
        ["tool"] (some tmAlwaysOk) 2) = some 3 ∧
    resultAnswer
      (generate_response_with_sequential_tools scriptTwoToolsThenText "q"
        ["tool"] (some tmAlwaysOk) 2) = some "synthesis" := by
  refine ⟨by simp, by omega, rfl, ?_, ?_⟩ <;>
  · obtain ⟨r, st2, hg, _, hlen, _, _, hans⟩ :=
      (round_bounding_and_forced_final_synthesis scriptTwoToolsThenText
          tmAlwaysOk ["tool"] (by simp) 2 (by omega) "q").2
        (fun j hj => by
          interval_cases j <;>
            exact ⟨sampleToolResponse, rfl, rfl, rfl, by decide⟩)
        (sampleTextResponse "synthesis") rfl
    have := hans ⟨"text", "synthesis", "", [], ""⟩ [] rfl
    simp [resultCallCount, resultAnswer, hg, hlen, this]

/-- C6: when all rounds succeed with at least one tool call each, the final
state's accumulated source list is exactly the round-by-round concatenation
of each round's sources, in round order, with no deduplication; the list is
part of the result value, so the caller observes it only once the whole
query has returned. -/
theorem sources_concatenated_in_round_order (script : ModelScript)
    (tm : ToolManagerModel) (tools : List ToolDef) (h : tools ≠ [])
    (N : Nat) (q : String) (hok : ∀ j, j < N → RoundOKSrc script tm j) :
    ∃ r st2,
      generate_response_with_sequential_tools script q tools (some tm) N =
        .ok r ∧
      r.state? = some st2 ∧
      st2.all_sources = sourcesOfRounds tm 0 N := by
  cases tools with
  | nil => exact absurd rfl h
  | cons t ts =>
    obtain ⟨st2, cs, heq, _, hsrc⟩ :=
      runRounds_prefix_src script tm (t :: ts) N N 0 0
        { messages := [userMsg q], max_rounds := N } le_rfl
        (fun j hj => by simpa using hok j hj)
    simp only [Nat.zero_add, Nat.sub_self, Nat.add_zero] at heq
    rw [runRounds] at heq
    simp only [prependCalls, List.append_nil] at heq
    refine ⟨⟨(generate_final_response_after_tools script N st2).1,
        cs ++ [(generate_final_response_after_tools script N st2).2], some st2⟩,
      st2, by simp [generate_response_with_sequential_tools, heq], rfl, ?_⟩
    simpa using hsrc

/-- C6 witness: a tool manager handing out the same source in both rounds
yields that source twice — concatenated in round order, not deduplicated. -/
theorem sources_concatenated_in_round_order_witness :
    (["tool"] : List ToolDef) ≠ [] ∧
    resultSources
      (generate_response_with_sequential_tools scriptTwoToolsThenText "q"
        ["tool"] (some tmSameSource) 2) =
      some [⟨"dup", none⟩, ⟨"dup", none⟩] := by
  refine ⟨by simp, ?_⟩
  obtain ⟨r, st2, hg, hst, hsrc⟩ :=
    sources_concatenated_in_round_order scriptTwoToolsThenText tmSameSource
      ["tool"] (by simp) 2 "q"
      (fun j hj => by
        interval_cases j <;>
          exact ⟨sampleToolResponse, rfl, rfl, rfl, by decide⟩)
  simp only [resultSources, hg, hst, hsrc, Option.map_some']
  rfl

/-- C4 (counterexample): a tool failure in round 2, after a successful
round 1 that collected a source, still leaves round 1's source in the
accumulated source list — refuting the claim that a failing round yields
zero sources for the query. -/
theorem round2_tool_failure_retains_round1_sources :
    resultAnswer
      (generate_response_with_sequential_tools scriptFailRound2 "q" ["tool"]
        (some tmSecondRaises) 2) = some (toolFailText 2) ∧
    resultSources
      (generate_response_with_sequential_tools scriptFailRound2 "q" ["tool"]
        (some tmSecondRaises) 2) = some [⟨"src0", none⟩] ∧
    ([⟨"src0", none⟩] : List Source) ≠ [] := by
  refine ⟨by decide, by decide, by decide⟩

/-- C4 (amended): if a tool invocation of round `n` raises (after `n - 1`
successful rounds), the orchestrator answers
"Tool execution failed in round <n>...", makes no further model call
(exactly `n` calls in total), appends no tool-result message for the failed
round (the transcript ends with the round's assistant message, so the
sibling results are discarded), and the accumulated sources are exactly
those of rounds `1..n-1` — in particular zero sources when `n = 1`. -/
theorem tool_failure_aborts_round (script : ModelScript)
    (tm : ToolManagerModel) (tools : List ToolDef) (h : tools ≠ [])
    (N : Nat) (q : String) (k : Nat) (hk : k < N)
    (hpre : ∀ j, j < k → RoundOKSrc script tm j)
    (resp : ModelResponse) (hr : script k = .ok resp)
    (hstop : resp.stop_reason = "tool_use")
    (hfail : (runToolBlocks tm (k + 1) resp.content).2.2 = false) :
    ∃ r st3,
      generate_response_with_sequential_tools script q tools (some tm) N =
        .ok r ∧
      r.answer = toolFailText (k + 1) ∧
      r.calls.length = k + 1 ∧
      r.state? = some st3 ∧
      st3.all_sources = sourcesOfRounds tm 0 k ∧
      st3.messages.getLast? = some (assistantMsg resp.content) := by
  cases tools with
  | nil => exact absurd rfl h
  | cons t ts =>
    obtain ⟨st2, cs, heq, hlen, hsrc⟩ :=
      runRounds_prefix_src script tm (t :: ts) k N 0 0
        { messages := [userMsg q], max_rounds := N } (le_of_lt hk)
        (fun j hj => by simpa using hpre j hj)
    simp only [Nat.zero_add, Nat.add_zero] at heq
    obtain ⟨m, hm⟩ : ∃ m, N - k = m + 1 := ⟨N - k - 1, by omega⟩
    rw [hm] at heq
    rw [runRounds, hr] at heq
    simp only [hstop, ne_eq, not_true_eq_false, if_false,
      process_of_fail resp st2 tm (k + 1) k hfail, prependCalls] at heq
    refine ⟨⟨toolFailText (k + 1), cs ++ [execute_round_call st2 (t :: ts)],
        some { st2 with
          messages := st2.messages ++ [assistantMsg resp.content]
          completed_tool_calls := st2.completed_tool_calls ++
            (runToolBlocks tm (k + 1) resp.content).2.1 }⟩,
      _, by simp [generate_response_with_sequential_tools, heq], rfl,
      by simp [hlen], rfl, by simpa using hsrc, ?_⟩
    simp [List.getLast?_concat]

/-- C4 witness: a tool failure in round 1 yields the round-1 error text
and an empty source list. -/
theorem tool_failure_aborts_round_witness :
    (runToolBlocks tmAlwaysRaise 1 sampleToolResponse.content).2.2 = false ∧
    resultAnswer
      (generate_response_with_sequential_tools scriptToolThenText "q" ["tool"]
        (some tmAlwaysRaise) 2) = some (toolFailText 1) ∧
    resultSources
      (generate_response_with_sequential_tools scriptToolThenText "q" ["tool"]
        (some tmAlwaysRaise) 2) = some [] := by
  obtain ⟨r, st3, hg, hans, _, hst, hsrc, _⟩ :=
    tool_failure_aborts_round scriptToolThenText tmAlwaysRaise ["tool"]
      (by simp) 2 "q" 0 (by omega) (fun j hj => absurd hj (by omega))
      sampleToolResponse rfl rfl (by decide)
  refine ⟨by decide, ?_, ?_⟩
  · simp [resultAnswer, hg, hans]
  · simp only [resultSources, hg, hst, hsrc, Option.map_some']
    rfl

/-- C10: a round whose response has stop condition tool use but contains
no tool-use block is still successful: the assistant message is appended,
no tool-result message is appended, no sources are collected, the round
counter is incremented; and at the orchestrator level such a round 1 is
followed by at least one further model call (the loop proceeds, no
exception escapes). -/
theorem empty_tool_use_round_succeeds (response : ModelResponse)
    (st : ToolRoundState) (tm : ToolManagerModel) (rn gl : Nat)
    (hn : ∀ b ∈ response.content, b.type ≠ "tool_use")
    (script : ModelScript) (tools : List ToolDef) (h : tools ≠ [])
    (mr : Nat) (hmr : 0 < mr) (q : String)
    (hr : script 0 = .ok response)
    (hstop : response.stop_reason = "tool_use") :
    process_tool_execution_for_round response st tm rn gl =
      (true,
       { st with
          messages := st.messages ++ [assistantMsg response.content]
          round_count := st.round_count + 1 }, gl) ∧
    raisesException
      (generate_response_with_sequential_tools script q tools (some tm) mr) =
      false ∧
    2 ≤ (resultCallCount
      (generate_response_with_sequential_tools script q tools (some tm) mr)).getD 0 := by
  refine ⟨process_of_no_tools response st tm rn gl hn, ?_⟩
  obtain ⟨f, rfl⟩ := Nat.exists_eq_succ_of_ne_zero (Nat.pos_iff_ne_zero.mp hmr)
  cases tools with
  | nil => exact absurd rfl h
  | cons t ts =>
    have hp : process_tool_execution_for_round response
        ⟨[userMsg q], 0, f + 1, [], []⟩ tm 1 0 =
        (true, ⟨[userMsg q, assistantMsg response.content], 1, f + 1, [], []⟩, 0) := by
      rw [process_of_no_tools _ _ _ _ _ hn]
      rfl
    have hstep := runRounds_succ_toolstep script tm (t :: ts) f 1 0 0
      ⟨[userMsg q], 0, f + 1, [], []⟩ response hr hstop _ _ hp
    cases f with
    | zero =>
      rw [runRounds] at hstep
      simp only [prependCalls, List.append_nil] at hstep
      simp [generate_response_with_sequential_tools, hstep,
        raisesException, resultCallCount]
    | succ f2 =>
      have hnn := runRounds_loopCalls_ne_nil script tm (t :: ts) f2 2 1 0
        ⟨[userMsg q, assistantMsg response.content], 1, f2 + 1 + 1, [], []⟩
      cases hr2 : runRounds script tm (t :: ts) (f2 + 1) 2 1 0
          ⟨[userMsg q, assistantMsg response.content], 1, f2 + 1 + 1, [], []⟩ with
      | answer a st2 cs2 =>
        rw [hr2] at hnn hstep
        simp only [loopCalls] at hnn
        simp only [prependCalls] at hstep
        have hpos : 1 ≤ cs2.length := List.length_pos.mpr hnn
        simp [generate_response_with_sequential_tools, hstep,
          raisesException, resultCallCount]
        omega
      | maxReached st2 cs2 ci2 gl2 =>
        rw [hr2] at hstep
        simp only [prependCalls] at hstep
        simp [generate_response_with_sequential_tools, hstep,
          raisesException, resultCallCount]

/-- C10 witness: a tool-use response with only a text block at round 1
still leads to a second model call and a normal return. -/
theorem empty_tool_use_round_succeeds_witness :
    scriptEmptyToolUse 0 =
      .ok (⟨"tool_use", [⟨"text", "thinking", "", [], ""⟩]⟩ : ModelResponse) ∧
    raisesException
      (generate_response_with_sequential_tools scriptEmptyToolUse "q" ["tool"]
        (some tmAlwaysOk) 2) = false ∧
    2 ≤ (resultCallCount
      (generate_response_with_sequential_tools scriptEmptyToolUse "q" ["tool"]
        (some tmAlwaysOk) 2)).getD 0 := by
  have H := empty_tool_use_round_succeeds
    (⟨"tool_use", [⟨"text", "thinking", "", [], ""⟩]⟩ : ModelResponse)
    ⟨[], 0, 2, [], []⟩ tmAlwaysOk 1 0 (by decide) scriptEmptyToolUse
    ["tool"] (by simp) 2 (by omega) "q" rfl rfl
  exact ⟨rfl, H.2.1, H.2.2⟩

end RagChatbot
